import Mathlib

/-!
# dummy_unistd for GCC-RX: a shallow embedding of `dummy_unistd.c`

The module keeps three pieces of process-wide state: a table of
`FILE_DESCRIPTOR_NUM` bundles of six function pointers, a table of
`PROCESS_ID_NUM` signal handlers and the current process id.

Conventions of the embedding.

* `int`, `off_t`, `ssize_t` and `pid_t` are 32-bit signed on the RX target
  and are carried as `Int`; conversions among them keep the value.  The
  casts `(unsigned int)x` of the source are written out as `x % 2 ^ 32`.
* `size_t` counts and the `buf` pointers are carried as `Nat`.
* A function pointer is `Option` of a function, `none` being `NULL`.
* Registered functions act on an external world `W` (devices, buffers); they
  receive the world and hand back their result with the new world.  They do
  not call back into the module.
* An array access outside the array has no defined behaviour in C; every
  operation that indexes a table returns `Option`, `none` standing for such
  an access.
-/

namespace DummyUnistd

/-- Capacity of the descriptor table (`#define FILE_DESCRIPTOR_NUM (3)`). -/
def FILE_DESCRIPTOR_NUM : Nat := 3

/-- Capacity of the process table (`#define PROCESS_ID_NUM (3)`). -/
def PROCESS_ID_NUM : Nat := 3

/-- Values representable in the 32-bit signed `int` of the target. -/
def IsInt32 (x : Int) : Prop := -2147483648 ≤ x ∧ x ≤ 2147483647

instance (x : Int) : Decidable (IsInt32 x) := by
  unfold IsInt32
  exact inferInstance

/-- The cast `(unsigned int)x`: the value modulo `2 ^ 32`. -/
def toUnsigned (x : Int) : Nat := (x % 4294967296).toNat

/-- Element `i` of an array of `n` entries: the slot when `0 ≤ i < n`, and
`none` when the access would fall outside the array. -/
def slotAt? (n : Nat) (i : Int) : Option (Fin n) :=
  if h : 0 ≤ i ∧ i < (n : Int) then some ⟨i.toNat, by omega⟩ else none

section Types

variable (W : Type)

abbrev close_func_t := Int → W → Int × W
abbrev fstat_func_t := Int → Nat → W → Int × W
abbrev isatty_func_t := Int → W → Int × W
abbrev lseek_func_t := Int → Int → Int → W → Int × W
abbrev read_func_t := Int → Nat → Nat → W → Int × W
abbrev write_func_t := Int → Nat → Nat → W → Int × W
abbrev kill_func_t := Int → Int → W → Int × W

/-- The bundle of six function pointers of one descriptor. -/
structure file_control_functions_t where
  close_func : Option (close_func_t W)
  fstat_func : Option (fstat_func_t W)
  isatty_func : Option (isatty_func_t W)
  lseek_func : Option (lseek_func_t W)
  read_func : Option (read_func_t W)
  write_func : Option (write_func_t W)

/-- The static variables of `dummy_unistd.c`. -/
structure State where
  file_control_functions_list : Fin FILE_DESCRIPTOR_NUM → file_control_functions_t W
  now_pid : Int
  kill_func_list : Fin PROCESS_ID_NUM → Option (kill_func_t W)

end Types

variable {W : Type}

/-- A bundle with all six members `NULL`. -/
def nullBundle : file_control_functions_t W :=
  ⟨none, none, none, none, none, none⟩

/-- The state at start-up: both tables zero-initialised, `now_pid = 1`. -/
def initState : State W :=
  ⟨fun _ => nullBundle, 1, fun _ => none⟩

/-- Embedding of `register_new_file_descriptor`. -/
def register_new_file_descriptor (s : State W) (fd : Int)
    (file_control_functions : Option (file_control_functions_t W)) :
    Option (Int × State W) :=
  let ufd := toUnsigned fd
  if ufd ≥ FILE_DESCRIPTOR_NUM then some (-1, s)
  else
    match file_control_functions with
    | none => some (-1, s)
    | some b =>
      match slotAt? FILE_DESCRIPTOR_NUM fd with
      | none => none
      | some i =>
        some (0, { s with file_control_functions_list :=
                            Function.update s.file_control_functions_list i b })

/-- Embedding of `close`. -/
def close (s : State W) (fd : Int) (w : W) : Option (Int × State W × W) :=
  let ufd := toUnsigned fd
  if ufd ≥ FILE_DESCRIPTOR_NUM then some (-1, s, w)
  else
    match slotAt? FILE_DESCRIPTOR_NUM fd with
    | none => none
    | some i =>
      match (s.file_control_functions_list i).close_func with
      | none => some (-1, s, w)
      | some f => some ((f fd w).1, s, (f fd w).2)

/-- Embedding of `fstat`. -/
def fstat (s : State W) (fd : Int) (buf : Nat) (w : W) : Option (Int × State W × W) :=
  let ufd := toUnsigned fd
  if ufd ≥ FILE_DESCRIPTOR_NUM then some (-1, s, w)
  else
    match slotAt? FILE_DESCRIPTOR_NUM fd with
    | none => none
    | some i =>
      match (s.file_control_functions_list i).fstat_func with
      | none => some (-1, s, w)
      | some f => some ((f fd buf w).1, s, (f fd buf w).2)

/-- Embedding of `isatty`. -/
def isatty (s : State W) (fd : Int) (w : W) : Option (Int × State W × W) :=
  let ufd := toUnsigned fd
  if ufd ≥ FILE_DESCRIPTOR_NUM then some (-1, s, w)
  else
    match slotAt? FILE_DESCRIPTOR_NUM fd with
    | none => none
    | some i =>
      match (s.file_control_functions_list i).isatty_func with
      | none => some (-1, s, w)
      | some f => some ((f fd w).1, s, (f fd w).2)

/-- Embedding of `lseek`. -/
def lseek (s : State W) (fd : Int) (offset : Int) (whence : Int) (w : W) :
    Option (Int × State W × W) :=
  let ufd := toUnsigned fd
  if ufd ≥ FILE_DESCRIPTOR_NUM then some (-1, s, w)
  else
    match slotAt? FILE_DESCRIPTOR_NUM fd with
    | none => none
    | some i =>
      match (s.file_control_functions_list i).lseek_func with
      | none => some (-1, s, w)
      | some f => some ((f fd offset whence w).1, s, (f fd offset whence w).2)

/-- Embedding of `read`; the failure value is `0`. -/
def read (s : State W) (fd : Int) (buf : Nat) (count : Nat) (w : W) :
    Option (Int × State W × W) :=
  let ufd := toUnsigned fd
  if ufd ≥ FILE_DESCRIPTOR_NUM then some (0, s, w)
  else
    match slotAt? FILE_DESCRIPTOR_NUM fd with
    | none => none
    | some i =>
      match (s.file_control_functions_list i).read_func with
      | none => some (0, s, w)
      | some f => some ((f fd buf count w).1, s, (f fd buf count w).2)

/-- Embedding of `write`. -/
def write (s : State W) (fd : Int) (buf : Nat) (count : Nat) (w : W) :
    Option (Int × State W × W) :=
  let ufd := toUnsigned fd
  if ufd ≥ FILE_DESCRIPTOR_NUM then some (-1, s, w)
  else
    match slotAt? FILE_DESCRIPTOR_NUM fd with
    | none => none
    | some i =>
      match (s.file_control_functions_list i).write_func with
      | none => some (-1, s, w)
      | some f => some ((f fd buf count w).1, s, (f fd buf count w).2)

/-- Embedding of `register_new_process`: the only check is the signed
comparison `new_pid >= PROCESS_ID_NUM`; the store then indexes the table
with `new_pid`. -/
def register_new_process (s : State W) (new_pid : Int)
    (new_kill_func : Option (kill_func_t W)) : Option (Int × State W) :=
  if new_pid ≥ (PROCESS_ID_NUM : Int) then some (-1, s)
  else
    match slotAt? PROCESS_ID_NUM new_pid with
    | none => none
    | some k =>
      some (0, { s with kill_func_list := Function.update s.kill_func_list k new_kill_func })

/-- Embedding of `set_new_pid`. -/
def set_new_pid (s : State W) (pid : Int) : State W :=
  { s with now_pid := pid }

/-- Embedding of `getpid`. -/
def getpid (s : State W) : Int := s.now_pid

/-- Embedding of `kill`: the index starts as `(unsigned int)pid` and is
replaced by `(unsigned int)now_pid` when `pid <= 0`; both comparisons with
`PROCESS_ID_NUM` are signed. -/
def kill (s : State W) (pid : Int) (sig : Int) (w : W) : Option (Int × State W × W) :=
  if pid ≥ (PROCESS_ID_NUM : Int) then some (-1, s, w)
  else if pid ≤ 0 ∧ s.now_pid ≥ (PROCESS_ID_NUM : Int) then some (-1, s, w)
  else
    let i := if pid ≤ 0 then toUnsigned s.now_pid else toUnsigned pid
    match slotAt? PROCESS_ID_NUM (i : Int) with
    | none => none
    | some k =>
      match s.kill_func_list k with
      | none => some (-1, s, w)
      | some f => some ((f pid sig w).1, s, (f pid sig w).2)

/-! ## Concrete collaborators used in the scenarios

The world is a log of the calls made to registered functions, each entry
holding the first argument and the count or signal. -/

/-- A `write_func` that reports the count it was given and logs the call. -/
def countingWrite : write_func_t (List (Int × Int)) :=
  fun fd _ count w => ((count : Int), w ++ [(fd, (count : Int))])

/-- A bundle in which only `write_func` is present. -/
def writeOnlyBundle : file_control_functions_t (List (Int × Int)) :=
  ⟨none, none, none, none, none, some countingWrite⟩

/-- A `close_func` that reports success and logs the call. -/
def okClose : close_func_t (List (Int × Int)) :=
  fun fd w => (0, w ++ [(fd, 0)])

/-- A bundle in which only `close_func` is present. -/
def closeOnlyBundle : file_control_functions_t (List (Int × Int)) :=
  ⟨some okClose, none, none, none, none, none⟩

/-- A signal handler that returns `0` and logs `(pid, sig)` as received. -/
def okHandler : kill_func_t (List (Int × Int)) :=
  fun pid sig w => (0, w ++ [(pid, sig)])

/-! ## Sequences of calls

A caller of the module issues the public operations one after another; the
state and the world after one call are those the next call starts from. -/

/-- One call of a public operation, with its arguments. -/
inductive Call (W : Type) where
  | register_new_file_descriptor (fd : Int) (b : Option (file_control_functions_t W))
  | close (fd : Int)
  | fstat (fd : Int) (buf : Nat)
  | isatty (fd : Int)
  | lseek (fd : Int) (offset : Int) (whence : Int)
  | read (fd : Int) (buf : Nat) (count : Nat)
  | write (fd : Int) (buf : Nat) (count : Nat)
  | register_new_process (new_pid : Int) (f : Option (kill_func_t W))
  | set_new_pid (pid : Int)
  | getpid
  | kill (pid : Int) (sig : Int)

/-- Whether the call is `set_new_pid`. -/
def Call.isSetNewPid : Call W → Bool
  | .set_new_pid _ => true
  | _ => false

/-- The state and world after one call; `none` when the call indexes a table
outside its bounds. -/
def step (s : State W) (w : W) : Call W → Option (State W × W)
  | .register_new_file_descriptor fd b =>
    (register_new_file_descriptor s fd b).map fun r => (r.2, w)
  | .close fd => (close s fd w).map fun r => r.2
  | .fstat fd buf => (fstat s fd buf w).map fun r => r.2
  | .isatty fd => (isatty s fd w).map fun r => r.2
  | .lseek fd offset whence => (lseek s fd offset whence w).map fun r => r.2
  | .read fd buf count => (read s fd buf count w).map fun r => r.2
  | .write fd buf count => (write s fd buf count w).map fun r => r.2
  | .register_new_process new_pid f =>
    (register_new_process s new_pid f).map fun r => (r.2, w)
  | .set_new_pid pid => some (set_new_pid s pid, w)
  | .getpid => some (s, w)
  | .kill pid sig => (kill s pid sig w).map fun r => r.2

/-- The state and world after a sequence of calls, earliest first. -/
def run (s : State W) (w : W) : List (Call W) → Option (State W × W)
  | [] => some (s, w)
  | c :: cs =>
    match step s w c with
    | none => none
    | some (s1, w1) => run s1 w1 cs

/-- The bundle a call registers for slot `i`: the call is
`register_new_file_descriptor(i, &b)`. -/
def registeredBy (i : Fin FILE_DESCRIPTOR_NUM) : Call W → Option (file_control_functions_t W)
  | .register_new_file_descriptor fd (some b) => if fd = (i : Int) then some b else none
  | _ => none

/-- The bundle of the most recent successful registration for slot `i` in a
sequence of calls (earliest first), `none` when there is no such call. -/
def lastRegistered (i : Fin FILE_DESCRIPTOR_NUM) :
    List (Call W) → Option (file_control_functions_t W)
  | [] => none
  | c :: cs =>
    match lastRegistered i cs with
    | some b => some b
    | none => registeredBy i c

/-! ## Arithmetic of the bounds checks -/

theorem toUnsigned_of_nonneg (x : Int) (h0 : 0 ≤ x) (h : x < 4294967296) :
    (toUnsigned x : Int) = x := by
  unfold toUnsigned
  omega

theorem toUnsigned_of_neg (x : Int) (h0 : -4294967296 ≤ x) (h : x < 0) :
    (toUnsigned x : Int) = x + 4294967296 := by
  unfold toUnsigned
  omega

theorem toUnsigned_inRange (d : Int) (h0 : 0 ≤ d) (h : d < (FILE_DESCRIPTOR_NUM : Int)) :
    ¬ toUnsigned d ≥ FILE_DESCRIPTOR_NUM := by
  have := toUnsigned_of_nonneg d h0 (by unfold FILE_DESCRIPTOR_NUM at h; omega)
  omega

theorem toUnsigned_outOfRange (fd : Int) (hfd : IsInt32 fd)
    (h : fd < 0 ∨ fd ≥ (FILE_DESCRIPTOR_NUM : Int)) :
    toUnsigned fd ≥ FILE_DESCRIPTOR_NUM := by
  unfold IsInt32 at hfd
  unfold FILE_DESCRIPTOR_NUM at *
  rcases h with h | h
  · have := toUnsigned_of_neg fd (by omega) h
    omega
  · have := toUnsigned_of_nonneg fd (by omega) (by omega)
    omega

theorem slotAt?_inRange (n : Nat) (i : Int) (h0 : 0 ≤ i) (h : i < (n : Int)) :
    slotAt? n i = some ⟨i.toNat, by omega⟩ := by
  unfold slotAt?
  rw [dif_pos ⟨h0, h⟩]

theorem slotAt?_outOfRange (n : Nat) (i : Int) (h : i < 0 ∨ (n : Int) ≤ i) :
    slotAt? n i = none := by
  unfold slotAt?
  rw [dif_neg (by omega)]

/-! ## Dispatch through a registered bundle -/

theorem register_inRange (s : State W) (d : Int) (b : file_control_functions_t W)
    (h0 : 0 ≤ d) (h : d < (FILE_DESCRIPTOR_NUM : Int)) :
    register_new_file_descriptor s d (some b) =
      some (0, { s with file_control_functions_list :=
                          Function.update s.file_control_functions_list
                            ⟨d.toNat, by omega⟩ b }) := by
  unfold register_new_file_descriptor
  simp only [if_neg (toUnsigned_inRange d h0 h), slotAt?_inRange _ d h0 h]

theorem register_null (s : State W) (d : Int) :
    register_new_file_descriptor s d none = some (-1, s) := by
  unfold register_new_file_descriptor
  by_cases hu : toUnsigned d ≥ FILE_DESCRIPTOR_NUM
  · simp only [if_pos hu]
  · simp only [if_neg hu]

/-- C1: for an in-range descriptor `d`, registering bundle `b` returns `0`,
and afterwards each of the six operations on `d` whose member of `b` is
present returns what that member returns on `d` and the caller's other
arguments, with the effect of that one call on the world. -/
theorem dispatch_forwards_registered (s : State W) (d : Int)
    (b : file_control_functions_t W)
    (h0 : 0 ≤ d) (h : d < (FILE_DESCRIPTOR_NUM : Int)) :
    ∃ s1, register_new_file_descriptor s d (some b) = some (0, s1) ∧
      (∀ f w, b.close_func = some f →
        close s1 d w = some ((f d w).1, s1, (f d w).2)) ∧
      (∀ f buf w, b.fstat_func = some f →
        fstat s1 d buf w = some ((f d buf w).1, s1, (f d buf w).2)) ∧
      (∀ f w, b.isatty_func = some f →
        isatty s1 d w = some ((f d w).1, s1, (f d w).2)) ∧
      (∀ f offset whence w, b.lseek_func = some f →
        lseek s1 d offset whence w =
          some ((f d offset whence w).1, s1, (f d offset whence w).2)) ∧
      (∀ f buf count w, b.read_func = some f →
        read s1 d buf count w = some ((f d buf count w).1, s1, (f d buf count w).2)) ∧
      (∀ f buf count w, b.write_func = some f →
        write s1 d buf count w = some ((f d buf count w).1, s1, (f d buf count w).2)) := by
  refine ⟨_, register_inRange s d b h0 h, ?_, ?_, ?_, ?_, ?_, ?_⟩
  · intro f w hf
    unfold close
    simp only [if_neg (toUnsigned_inRange d h0 h), slotAt?_inRange _ d h0 h,
      Function.update_same, hf]
  · intro f buf w hf
    unfold fstat
    simp only [if_neg (toUnsigned_inRange d h0 h), slotAt?_inRange _ d h0 h,
      Function.update_same, hf]
  · intro f w hf
    unfold isatty
    simp only [if_neg (toUnsigned_inRange d h0 h), slotAt?_inRange _ d h0 h,
      Function.update_same, hf]
  · intro f offset whence w hf
    unfold lseek
    simp only [if_neg (toUnsigned_inRange d h0 h), slotAt?_inRange _ d h0 h,
      Function.update_same, hf]
  · intro f buf count w hf
    unfold read
    simp only [if_neg (toUnsigned_inRange d h0 h), slotAt?_inRange _ d h0 h,
      Function.update_same, hf]
  · intro f buf count w hf
    unfold write
    simp only [if_neg (toUnsigned_inRange d h0 h), slotAt?_inRange _ d h0 h,
      Function.update_same, hf]

theorem dispatch_forwards_registered_witness :
    (0 : Int) ≤ 1 ∧ (1 : Int) < (FILE_DESCRIPTOR_NUM : Int) ∧
      ∃ s1, register_new_file_descriptor initState 1 (some writeOnlyBundle) = some (0, s1) ∧
        write s1 1 0 5 [] = some (5, s1, [(1, 5)]) := by
  obtain ⟨s1, hr, -, -, -, -, -, hw⟩ :=
    dispatch_forwards_registered initState 1 writeOnlyBundle (by decide) (by decide)
  exact ⟨by decide, by decide, s1, hr, hw countingWrite 0 5 [] rfl⟩

/-! ## Failure values -/

/-- C2: for an `int` descriptor that is negative or at least
`FILE_DESCRIPTOR_NUM`, whatever the state and the other arguments, `close`,
`fstat`, `isatty`, `lseek` and `write` return `-1` and `read` returns `0`;
the registry is not consulted and the world is left as it was, so no
registered function has run. -/
theorem dispatch_outOfRange (s : State W) (fd : Int) (hfd : IsInt32 fd)
    (h : fd < 0 ∨ fd ≥ (FILE_DESCRIPTOR_NUM : Int))
    (buf count : Nat) (offset whence : Int) (w : W) :
    close s fd w = some (-1, s, w) ∧
    fstat s fd buf w = some (-1, s, w) ∧
    isatty s fd w = some (-1, s, w) ∧
    lseek s fd offset whence w = some (-1, s, w) ∧
    write s fd buf count w = some (-1, s, w) ∧
    read s fd buf count w = some (0, s, w) := by
  have hu := toUnsigned_outOfRange fd hfd h
  refine ⟨?_, ?_, ?_, ?_, ?_, ?_⟩
  · unfold close
    simp only [if_pos hu]
  · unfold fstat
    simp only [if_pos hu]
  · unfold isatty
    simp only [if_pos hu]
  · unfold lseek
    simp only [if_pos hu]
  · unfold write
    simp only [if_pos hu]
  · unfold read
    simp only [if_pos hu]

theorem dispatch_outOfRange_witness :
    IsInt32 (-1) ∧ ((-1 : Int) < 0 ∨ (-1 : Int) ≥ (FILE_DESCRIPTOR_NUM : Int)) ∧
      close (initState : State (List (Int × Int))) (-1) [] = some (-1, initState, []) ∧
      read (initState : State (List (Int × Int))) (-1) 0 5 [] = some (0, initState, []) := by
  have hfd : IsInt32 (-1) := by decide
  have hr : (-1 : Int) < 0 ∨ (-1 : Int) ≥ (FILE_DESCRIPTOR_NUM : Int) := Or.inl (by decide)
  obtain ⟨hc, -, -, -, -, hrd⟩ :=
    dispatch_outOfRange (initState : State (List (Int × Int))) (-1) hfd hr 0 5 0 0 []
  exact ⟨hfd, hr, hc, hrd⟩

/-- C3: for an in-range descriptor whose slot has the member of the requested
operation `NULL`, the operation fails as for an out-of-range descriptor
(`read` gives `0`, the other five give `-1`), whatever the other members of
the slot are.  Scenario: descriptor 1 registered with only a `write_func`
returning its count; then `write(1, buf, 5) = 5`, `read(1, buf, 5) = 0`,
`close(1) = -1` and `write(5, buf, 5) = -1`. -/
theorem absent_member_fails :
    (∀ (W : Type) (s : State W) (d : Int) (h0 : 0 ≤ d) (h : d < (FILE_DESCRIPTOR_NUM : Int))
        (buf count : Nat) (offset whence : Int) (w : W),
      ((s.file_control_functions_list ⟨d.toNat, by omega⟩).close_func = none →
        close s d w = some (-1, s, w)) ∧
      ((s.file_control_functions_list ⟨d.toNat, by omega⟩).fstat_func = none →
        fstat s d buf w = some (-1, s, w)) ∧
      ((s.file_control_functions_list ⟨d.toNat, by omega⟩).isatty_func = none →
        isatty s d w = some (-1, s, w)) ∧
      ((s.file_control_functions_list ⟨d.toNat, by omega⟩).lseek_func = none →
        lseek s d offset whence w = some (-1, s, w)) ∧
      ((s.file_control_functions_list ⟨d.toNat, by omega⟩).write_func = none →
        write s d buf count w = some (-1, s, w)) ∧
      ((s.file_control_functions_list ⟨d.toNat, by omega⟩).read_func = none →
        read s d buf count w = some (0, s, w))) ∧
    (∃ s1, register_new_file_descriptor initState 1 (some writeOnlyBundle) = some (0, s1) ∧
      write s1 1 0 5 [] = some (5, s1, [(1, 5)]) ∧
      read s1 1 0 5 [] = some (0, s1, []) ∧
      close s1 1 [] = some (-1, s1, []) ∧
      write s1 5 0 5 [] = some (-1, s1, [])) := by
  constructor
  · intro W s d h0 h buf count offset whence w
    refine ⟨?_, ?_, ?_, ?_, ?_, ?_⟩
    · intro hf
      unfold close
      simp only [if_neg (toUnsigned_inRange d h0 h), slotAt?_inRange _ d h0 h, hf]
    · intro hf
      unfold fstat
      simp only [if_neg (toUnsigned_inRange d h0 h), slotAt?_inRange _ d h0 h, hf]
    · intro hf
      unfold isatty
      simp only [if_neg (toUnsigned_inRange d h0 h), slotAt?_inRange _ d h0 h, hf]
    · intro hf
      unfold lseek
      simp only [if_neg (toUnsigned_inRange d h0 h), slotAt?_inRange _ d h0 h, hf]
    · intro hf
      unfold write
      simp only [if_neg (toUnsigned_inRange d h0 h), slotAt?_inRange _ d h0 h, hf]
    · intro hf
      unfold read
      simp only [if_neg (toUnsigned_inRange d h0 h), slotAt?_inRange _ d h0 h, hf]
  · exact ⟨_, rfl, rfl, rfl, rfl, rfl⟩

theorem absent_member_fails_witness :
    (0 : Int) ≤ 1 ∧ (1 : Int) < (FILE_DESCRIPTOR_NUM : Int) ∧
      close (initState : State (List (Int × Int))) 1 [] = some (-1, initState, []) ∧
      read (initState : State (List (Int × Int))) 1 0 5 [] = some (0, initState, []) := by
  have hg := absent_member_fails.1 (List (Int × Int)) initState 1 (by decide) (by decide)
    0 5 0 0 []
  exact ⟨by decide, by decide, hg.1 rfl, hg.2.2.2.2.2 rfl⟩

/-! ## Registration of descriptors -/

/-- C4: registering a `NULL` bundle returns `-1` and leaves the state as it
was, for every descriptor and every state; in particular, right after a
bundle `b` was registered for an in-range `d`, the failed call leaves slot
`d` equal to `b`. -/
theorem register_null_bundle (s : State W) (d : Int) :
    register_new_file_descriptor s d none = some (-1, s) ∧
    ∀ b : file_control_functions_t W, 0 ≤ d → d < (FILE_DESCRIPTOR_NUM : Int) →
      ∃ s1 i, register_new_file_descriptor s d (some b) = some (0, s1) ∧
        register_new_file_descriptor s1 d none = some (-1, s1) ∧
        slotAt? FILE_DESCRIPTOR_NUM d = some i ∧
        s1.file_control_functions_list i = b := by
  refine ⟨register_null s d, ?_⟩
  intro b h0 h
  exact ⟨_, _, register_inRange s d b h0 h, register_null _ d, slotAt?_inRange _ d h0 h,
    by simp only [Function.update_same]⟩

theorem register_null_bundle_witness :
    ∃ s1 i, register_new_file_descriptor initState 1 (some writeOnlyBundle) = some (0, s1) ∧
      register_new_file_descriptor s1 1 none = some (-1, s1) ∧
      slotAt? FILE_DESCRIPTOR_NUM 1 = some i ∧
      s1.file_control_functions_list i = writeOnlyBundle :=
  (register_null_bundle initState 1).2 writeOnlyBundle (by decide) (by decide)

/-- C5: for an `int` descriptor `d`, `register_new_file_descriptor` returns
`0` exactly when `0 ≤ d < FILE_DESCRIPTOR_NUM` and the bundle is not `NULL`,
and returns `-1` otherwise; for `d` outside the range it returns `-1` with
the whole state (both tables and the current id) as before, whatever the
bundle. -/
theorem register_result (s : State W) (d : Int) (hd : IsInt32 d)
    (b : Option (file_control_functions_t W)) :
    ((∃ s1, register_new_file_descriptor s d b = some (0, s1)) ↔
      (0 ≤ d ∧ d < (FILE_DESCRIPTOR_NUM : Int) ∧ b ≠ none)) ∧
    (¬ (0 ≤ d ∧ d < (FILE_DESCRIPTOR_NUM : Int) ∧ b ≠ none) →
      register_new_file_descriptor s d b = some (-1, s)) ∧
    ((d < 0 ∨ d ≥ (FILE_DESCRIPTOR_NUM : Int)) →
      register_new_file_descriptor s d b = some (-1, s)) := by
  have hout : (d < 0 ∨ d ≥ (FILE_DESCRIPTOR_NUM : Int)) →
      register_new_file_descriptor s d b = some (-1, s) := by
    intro h
    unfold register_new_file_descriptor
    simp only [if_pos (toUnsigned_outOfRange d hd h)]
  have hfail : ¬ (0 ≤ d ∧ d < (FILE_DESCRIPTOR_NUM : Int) ∧ b ≠ none) →
      register_new_file_descriptor s d b = some (-1, s) := by
    intro hn
    by_cases hr : 0 ≤ d ∧ d < (FILE_DESCRIPTOR_NUM : Int)
    · cases b with
      | none => exact register_null s d
      | some b0 => exact absurd ⟨hr.1, hr.2, by simp⟩ hn
    · exact hout (by omega)
  refine ⟨⟨?_, ?_⟩, hfail, hout⟩
  · rintro ⟨s1, hs1⟩
    by_contra hn
    rw [hfail hn] at hs1
    simp at hs1
  · rintro ⟨h0, h, hb⟩
    cases b with
    | none => exact absurd rfl hb
    | some b0 => exact ⟨_, register_inRange s d b0 h0 h⟩

theorem register_result_witness :
    IsInt32 3 ∧ ((3 : Int) < 0 ∨ (3 : Int) ≥ (FILE_DESCRIPTOR_NUM : Int)) ∧
      register_new_file_descriptor initState 3 (some writeOnlyBundle) = some (-1, initState) := by
  have hd : IsInt32 3 := by decide
  have hr : (3 : Int) < 0 ∨ (3 : Int) ≥ (FILE_DESCRIPTOR_NUM : Int) := Or.inr (by decide)
  exact ⟨hd, hr, (register_result initState 3 hd (some writeOnlyBundle)).2.2 hr⟩

/-- C6: registering `b1` and then `b2` for the same in-range descriptor leaves
slot `d` equal to `b2`, the state being the one a single registration of `b2`
gives, so nothing of `b1` remains; an operation whose member is present in
`b1` and `NULL` in `b2` is forwarded between the two calls and fails after
the second (`-1`, or `0` for `read`). -/
theorem reregister_replaces (s : State W) (d : Int) (b1 b2 : file_control_functions_t W)
    (h0 : 0 ≤ d) (h : d < (FILE_DESCRIPTOR_NUM : Int)) :
    ∃ s1 s2, register_new_file_descriptor s d (some b1) = some (0, s1) ∧
      register_new_file_descriptor s1 d (some b2) = some (0, s2) ∧
      s2.file_control_functions_list ⟨d.toNat, by omega⟩ = b2 ∧
      register_new_file_descriptor s d (some b2) = some (0, s2) ∧
      (∀ f w, b1.close_func = some f → b2.close_func = none →
        close s1 d w = some ((f d w).1, s1, (f d w).2) ∧ close s2 d w = some (-1, s2, w)) ∧
      (∀ f buf w, b1.fstat_func = some f → b2.fstat_func = none →
        fstat s1 d buf w = some ((f d buf w).1, s1, (f d buf w).2) ∧
        fstat s2 d buf w = some (-1, s2, w)) ∧
      (∀ f w, b1.isatty_func = some f → b2.isatty_func = none →
        isatty s1 d w = some ((f d w).1, s1, (f d w).2) ∧ isatty s2 d w = some (-1, s2, w)) ∧
      (∀ f offset whence w, b1.lseek_func = some f → b2.lseek_func = none →
        lseek s1 d offset whence w =
          some ((f d offset whence w).1, s1, (f d offset whence w).2) ∧
        lseek s2 d offset whence w = some (-1, s2, w)) ∧
      (∀ f buf count w, b1.read_func = some f → b2.read_func = none →
        read s1 d buf count w = some ((f d buf count w).1, s1, (f d buf count w).2) ∧
        read s2 d buf count w = some (0, s2, w)) ∧
      (∀ f buf count w, b1.write_func = some f → b2.write_func = none →
        write s1 d buf count w = some ((f d buf count w).1, s1, (f d buf count w).2) ∧
        write s2 d buf count w = some (-1, s2, w)) := by
  have hu := toUnsigned_inRange d h0 h
  have hs := slotAt?_inRange _ d h0 h
  refine ⟨_, _, register_inRange s d b1 h0 h, register_inRange _ d b2 h0 h, ?_, ?_,
    ?_, ?_, ?_, ?_, ?_, ?_⟩
  · simp only [Function.update_same]
  · rw [register_inRange s d b2 h0 h]
    simp only [Function.update_idem]
  · intro f w hf hn
    unfold close
    simp only [if_neg hu, hs, Function.update_same, hf, hn, and_self]
  · intro f buf w hf hn
    unfold fstat
    simp only [if_neg hu, hs, Function.update_same, hf, hn, and_self]
  · intro f w hf hn
    unfold isatty
    simp only [if_neg hu, hs, Function.update_same, hf, hn, and_self]
  · intro f offset whence w hf hn
    unfold lseek
    simp only [if_neg hu, hs, Function.update_same, hf, hn, and_self]
  · intro f buf count w hf hn
    unfold read
    simp only [if_neg hu, hs, Function.update_same, hf, hn, and_self]
  · intro f buf count w hf hn
    unfold write
    simp only [if_neg hu, hs, Function.update_same, hf, hn, and_self]

theorem reregister_replaces_witness :
    (0 : Int) ≤ 1 ∧ (1 : Int) < (FILE_DESCRIPTOR_NUM : Int) ∧
      ∃ s1 s2, register_new_file_descriptor initState 1 (some closeOnlyBundle) = some (0, s1) ∧
        register_new_file_descriptor s1 1 (some writeOnlyBundle) = some (0, s2) ∧
        close s1 1 [] = some (0, s1, [(1, 0)]) ∧
        close s2 1 [] = some (-1, s2, []) := by
  obtain ⟨s1, s2, hr1, hr2, -, -, hc, -⟩ :=
    reregister_replaces initState 1 closeOnlyBundle writeOnlyBundle (by decide) (by decide)
  exact ⟨by decide, by decide, s1, s2, hr1, hr2, hc okClose [] rfl rfl⟩

/-! ## Signals -/

/-- C7: for `pid ≤ 0` and a current id `c` with `0 ≤ c < PROCESS_ID_NUM`,
`kill(pid, sig)` consults process slot `c`: a handler `f` found there is
called as `f(pid, sig)`, with the caller's own `pid`, and its result is
returned; an empty slot gives `-1`.  Scenario: a handler returning `0`
registered at 2, `set_new_pid(2)`; then `kill(0, 9)` and `kill(-1, 9)` call
it with `(0, 9)` and `(-1, 9)` and return `0`. -/
theorem kill_nonpositive_uses_current :
    (∀ (W : Type) (s : State W) (pid sig : Int) (w : W), pid ≤ 0 →
      ∀ (h0 : 0 ≤ s.now_pid) (h : s.now_pid < (PROCESS_ID_NUM : Int)),
        (∀ f, s.kill_func_list ⟨s.now_pid.toNat, by omega⟩ = some f →
          kill s pid sig w = some ((f pid sig w).1, s, (f pid sig w).2)) ∧
        (s.kill_func_list ⟨s.now_pid.toNat, by omega⟩ = none →
          kill s pid sig w = some (-1, s, w))) ∧
    (∃ s1, register_new_process initState 2 (some okHandler) = some (0, s1) ∧
      kill (set_new_pid s1 2) 0 9 [] = some (0, set_new_pid s1 2, [(0, 9)]) ∧
      kill (set_new_pid s1 2) (-1) 9 [] = some (0, set_new_pid s1 2, [(-1, 9)])) := by
  constructor
  · intro W s pid sig w hpid h0 h
    have hp : ¬ pid ≥ (PROCESS_ID_NUM : Int) := by omega
    have hc : ¬ (pid ≤ 0 ∧ s.now_pid ≥ (PROCESS_ID_NUM : Int)) := by omega
    have hu : (toUnsigned s.now_pid : Int) = s.now_pid :=
      toUnsigned_of_nonneg _ h0 (by unfold PROCESS_ID_NUM at h; omega)
    constructor
    · intro f hf
      unfold kill
      simp only [if_neg hp, if_neg hc, if_pos hpid, hu, slotAt?_inRange _ _ h0 h, hf]
    · intro hf
      unfold kill
      simp only [if_neg hp, if_neg hc, if_pos hpid, hu, slotAt?_inRange _ _ h0 h, hf]
  · exact ⟨_, rfl, rfl, rfl⟩

theorem kill_nonpositive_uses_current_witness :
    (0 : Int) ≤ 0 ∧
      kill (initState : State (List (Int × Int))) 0 9 [] = some (-1, initState, []) := by
  have hg := kill_nonpositive_uses_current.1 (List (Int × Int)) initState 0 9 []
    (by decide) (by decide) (by decide)
  exact ⟨by decide, hg.2 rfl⟩

/-- C8, evaluated at a negative current id: after `set_new_pid(-1)` the check
`now_pid >= PROCESS_ID_NUM` does not fire, the index becomes
`(unsigned int)(-1) = 4294967295` and `kill(0, 9)` reads outside the table of
three handlers instead of returning `-1`; with a stored id of 3 the check
fires and the result is `-1`. -/
theorem kill_negative_current_reads_outside :
    toUnsigned (-1) = 4294967295 ∧
    kill (set_new_pid (initState : State (List (Int × Int))) (-1)) 0 9 [] = none ∧
    kill (set_new_pid (initState : State (List (Int × Int))) 3) 0 9 [] =
      some (-1, set_new_pid initState 3, []) :=
  ⟨rfl, rfl, rfl⟩

/-- C9, evaluated at a negative id: `register_new_process(-1, h)` passes the
only check, `new_pid >= PROCESS_ID_NUM`, and stores at index `-1`, outside
the table, instead of returning `-1`; id 3 is rejected with the state as
before and id 2 is accepted. -/
theorem register_process_negative_writes_outside :
    register_new_process initState (-1) (some okHandler) = none ∧
    register_new_process initState 3 (some okHandler) = some (-1, initState) ∧
    (∃ s1, register_new_process initState 2 (some okHandler) = some (0, s1) ∧
      s1.kill_func_list ⟨2, by decide⟩ = some okHandler) :=
  ⟨rfl, rfl, _, rfl, rfl⟩

/-- C10: for `pid ≥ PROCESS_ID_NUM`, `kill(pid, sig)` returns `-1` in every
state, whatever handlers are registered and whatever the current id; the
world is as before, so no handler has run. -/
theorem kill_pid_too_large (s : State W) (pid sig : Int) (w : W)
    (h : pid ≥ (PROCESS_ID_NUM : Int)) :
    kill s pid sig w = some (-1, s, w) := by
  unfold kill
  simp only [if_pos h]

theorem kill_pid_too_large_witness :
    (3 : Int) ≥ (PROCESS_ID_NUM : Int) ∧
      ∃ s1, register_new_process initState 2 (some okHandler) = some (0, s1) ∧
        kill s1 3 9 [] = some (-1, s1, []) :=
  ⟨by decide, _, rfl, kill_pid_too_large _ 3 9 [] (by decide)⟩

/-! ## Frame lemmas: what each operation leaves alone -/

theorem slotAt?_val (n : Nat) (i : Int) (k : Fin n) (h : slotAt? n i = some k) :
    ((k : Nat) : Int) = i := by
  unfold slotAt? at h
  split at h
  · rename_i hr
    simp only [Option.some.injEq] at h
    rw [← h]
    exact Int.toNat_of_nonneg hr.1
  · simp at h

theorem close_state (s : State W) (fd : Int) (w : W) (r : Int) (s1 : State W) (w1 : W)
    (h : close s fd w = some (r, s1, w1)) : s1 = s := by
  simp only [close] at h
  repeat' split at h
  all_goals first
    | (simp only [Option.some.injEq, Prod.mk.injEq] at h; exact h.2.1.symm)
    | simp at h

theorem fstat_state (s : State W) (fd : Int) (buf : Nat) (w : W) (r : Int) (s1 : State W) (w1 : W)
    (h : fstat s fd buf w = some (r, s1, w1)) : s1 = s := by
  simp only [fstat] at h
  repeat' split at h
  all_goals first
    | (simp only [Option.some.injEq, Prod.mk.injEq] at h; exact h.2.1.symm)
    | simp at h

theorem isatty_state (s : State W) (fd : Int) (w : W) (r : Int) (s1 : State W) (w1 : W)
    (h : isatty s fd w = some (r, s1, w1)) : s1 = s := by
  simp only [isatty] at h
  repeat' split at h
  all_goals first
    | (simp only [Option.some.injEq, Prod.mk.injEq] at h; exact h.2.1.symm)
    | simp at h

theorem lseek_state (s : State W) (fd offset whence : Int) (w : W) (r : Int) (s1 : State W) (w1 : W)
    (h : lseek s fd offset whence w = some (r, s1, w1)) : s1 = s := by
  simp only [lseek] at h
  repeat' split at h
  all_goals first
    | (simp only [Option.some.injEq, Prod.mk.injEq] at h; exact h.2.1.symm)
    | simp at h

theorem read_state (s : State W) (fd : Int) (buf count : Nat) (w : W) (r : Int) (s1 : State W) (w1 : W)
    (h : read s fd buf count w = some (r, s1, w1)) : s1 = s := by
  simp only [read] at h
  repeat' split at h
  all_goals first
    | (simp only [Option.some.injEq, Prod.mk.injEq] at h; exact h.2.1.symm)
    | simp at h

theorem write_state (s : State W) (fd : Int) (buf count : Nat) (w : W) (r : Int) (s1 : State W) (w1 : W)
    (h : write s fd buf count w = some (r, s1, w1)) : s1 = s := by
  simp only [write] at h
  repeat' split at h
  all_goals first
    | (simp only [Option.some.injEq, Prod.mk.injEq] at h; exact h.2.1.symm)
    | simp at h

theorem kill_state (s : State W) (pid sig : Int) (w : W) (r : Int) (s1 : State W) (w1 : W)
    (h : kill s pid sig w = some (r, s1, w1)) : s1 = s := by
  simp only [kill] at h
  repeat' split at h
  all_goals first
    | (simp only [Option.some.injEq, Prod.mk.injEq] at h; exact h.2.1.symm)
    | simp at h

theorem register_fd_frame (s : State W) (fd : Int) (b : Option (file_control_functions_t W))
    (r : Int) (s1 : State W) (h : register_new_file_descriptor s fd b = some (r, s1)) :
    s1.now_pid = s.now_pid ∧ s1.kill_func_list = s.kill_func_list ∧
      ∀ j : Fin FILE_DESCRIPTOR_NUM, ((j : Nat) : Int) ≠ fd →
        s1.file_control_functions_list j = s.file_control_functions_list j := by
  by_cases hu : toUnsigned fd ≥ FILE_DESCRIPTOR_NUM
  · simp only [register_new_file_descriptor, if_pos hu, Option.some.injEq, Prod.mk.injEq] at h
    obtain ⟨-, rfl⟩ := h
    exact ⟨rfl, rfl, fun _ _ => rfl⟩
  · cases b with
    | none =>
      simp only [register_new_file_descriptor, if_neg hu, Option.some.injEq, Prod.mk.injEq] at h
      obtain ⟨-, rfl⟩ := h
      exact ⟨rfl, rfl, fun _ _ => rfl⟩
    | some b0 =>
      cases hs : slotAt? FILE_DESCRIPTOR_NUM fd with
      | none => simp [register_new_file_descriptor, hu, hs] at h
      | some i =>
        simp only [register_new_file_descriptor, if_neg hu, hs, Option.some.injEq,
          Prod.mk.injEq] at h
        obtain ⟨-, rfl⟩ := h
        refine ⟨rfl, rfl, ?_⟩
        intro j hj
        have hne : j ≠ i := by
          rintro rfl
          exact hj (slotAt?_val _ _ _ hs)
        simp only [Function.update_noteq hne]

theorem register_process_frame (s : State W) (new_pid : Int) (f : Option (kill_func_t W))
    (r : Int) (s1 : State W) (h : register_new_process s new_pid f = some (r, s1)) :
    s1.now_pid = s.now_pid ∧
      s1.file_control_functions_list = s.file_control_functions_list ∧
      ∀ j : Fin PROCESS_ID_NUM, ((j : Nat) : Int) ≠ new_pid →
        s1.kill_func_list j = s.kill_func_list j := by
  by_cases hu : new_pid ≥ (PROCESS_ID_NUM : Int)
  · simp only [register_new_process, if_pos hu, Option.some.injEq, Prod.mk.injEq] at h
    obtain ⟨-, rfl⟩ := h
    exact ⟨rfl, rfl, fun _ _ => rfl⟩
  · cases hs : slotAt? PROCESS_ID_NUM new_pid with
    | none => simp [register_new_process, hu, hs] at h
    | some i =>
      simp only [register_new_process, if_neg hu, hs, Option.some.injEq, Prod.mk.injEq] at h
      obtain ⟨-, rfl⟩ := h
      refine ⟨rfl, rfl, ?_⟩
      intro j hj
      have hne : j ≠ i := by
        rintro rfl
        exact hj (slotAt?_val _ _ _ hs)
      simp only [Function.update_noteq hne]

/-! ## One call and sequences of calls -/

theorem step_spec (s : State W) (w : W) (c : Call W) (s1 : State W) (w1 : W)
    (h : step s w c = some (s1, w1)) :
    (c.isSetNewPid = false → s1.now_pid = s.now_pid) ∧
      ∀ i : Fin FILE_DESCRIPTOR_NUM,
        s1.file_control_functions_list i =
          (registeredBy i c).getD (s.file_control_functions_list i) := by
  cases c with
  | register_new_file_descriptor fd b =>
    simp only [step, Option.map_eq_some', Prod.mk.injEq] at h
    obtain ⟨⟨r, s2⟩, hop, rfl, -⟩ := h
    refine ⟨fun _ => (register_fd_frame s fd b r s2 hop).1, ?_⟩
    intro i
    cases b with
    | none =>
      rw [register_null s fd] at hop
      simp only [Option.some.injEq, Prod.mk.injEq] at hop
      obtain ⟨-, rfl⟩ := hop
      rfl
    | some b0 =>
      by_cases hi : fd = ((i : Nat) : Int)
      · have h0 : 0 ≤ fd := by omega
        have hlt : fd < (FILE_DESCRIPTOR_NUM : Int) := by
          have := i.isLt
          omega
        rw [register_inRange s fd b0 h0 hlt] at hop
        simp only [Option.some.injEq, Prod.mk.injEq] at hop
        obtain ⟨-, rfl⟩ := hop
        have hidx : (⟨fd.toNat, by omega⟩ : Fin FILE_DESCRIPTOR_NUM) = i := by
          apply Fin.ext
          simp only [hi, Int.toNat_ofNat]
        simp only [registeredBy, if_pos hi, Option.getD_some]
        rw [Function.update_apply, if_pos hidx.symm]
      · have hne : ((i : Nat) : Int) ≠ fd := fun e => hi e.symm
        simp only [registeredBy, if_neg hi, Option.getD_none]
        exact (register_fd_frame s fd (some b0) r s2 hop).2.2 i hne
  | register_new_process new_pid f =>
    simp only [step, Option.map_eq_some', Prod.mk.injEq] at h
    obtain ⟨⟨r, s2⟩, hop, rfl, -⟩ := h
    have hf := register_process_frame s new_pid f r s2 hop
    refine ⟨fun _ => hf.1, fun i => ?_⟩
    simp only [registeredBy, Option.getD_none, hf.2.1]
  | set_new_pid pid =>
    simp only [step, Option.some.injEq, Prod.mk.injEq] at h
    obtain ⟨rfl, -⟩ := h
    exact ⟨fun hc => by simp [Call.isSetNewPid] at hc, fun i => rfl⟩
  | getpid =>
    simp only [step, Option.some.injEq, Prod.mk.injEq] at h
    obtain ⟨rfl, -⟩ := h
    exact ⟨fun _ => rfl, fun i => rfl⟩
  | close fd =>
    simp only [step, Option.map_eq_some'] at h
    obtain ⟨⟨r, s2, w2⟩, hop, heq⟩ := h
    simp only [Prod.mk.injEq] at heq
    obtain ⟨rfl, -⟩ := heq
    rw [close_state s fd w r s2 w2 hop]
    exact ⟨fun _ => rfl, fun i => rfl⟩
  | fstat fd buf =>
    simp only [step, Option.map_eq_some'] at h
    obtain ⟨⟨r, s2, w2⟩, hop, heq⟩ := h
    simp only [Prod.mk.injEq] at heq
    obtain ⟨rfl, -⟩ := heq
    rw [fstat_state s fd buf w r s2 w2 hop]
    exact ⟨fun _ => rfl, fun i => rfl⟩
  | isatty fd =>
    simp only [step, Option.map_eq_some'] at h
    obtain ⟨⟨r, s2, w2⟩, hop, heq⟩ := h
    simp only [Prod.mk.injEq] at heq
    obtain ⟨rfl, -⟩ := heq
    rw [isatty_state s fd w r s2 w2 hop]
    exact ⟨fun _ => rfl, fun i => rfl⟩
  | lseek fd offset whence =>
    simp only [step, Option.map_eq_some'] at h
    obtain ⟨⟨r, s2, w2⟩, hop, heq⟩ := h
    simp only [Prod.mk.injEq] at heq
    obtain ⟨rfl, -⟩ := heq
    rw [lseek_state s fd offset whence w r s2 w2 hop]
    exact ⟨fun _ => rfl, fun i => rfl⟩
  | read fd buf count =>
    simp only [step, Option.map_eq_some'] at h
    obtain ⟨⟨r, s2, w2⟩, hop, heq⟩ := h
    simp only [Prod.mk.injEq] at heq
    obtain ⟨rfl, -⟩ := heq
    rw [read_state s fd buf count w r s2 w2 hop]
    exact ⟨fun _ => rfl, fun i => rfl⟩
  | write fd buf count =>
    simp only [step, Option.map_eq_some'] at h
    obtain ⟨⟨r, s2, w2⟩, hop, heq⟩ := h
    simp only [Prod.mk.injEq] at heq
    obtain ⟨rfl, -⟩ := heq
    rw [write_state s fd buf count w r s2 w2 hop]
    exact ⟨fun _ => rfl, fun i => rfl⟩
  | kill pid sig =>
    simp only [step, Option.map_eq_some'] at h
    obtain ⟨⟨r, s2, w2⟩, hop, heq⟩ := h
    simp only [Prod.mk.injEq] at heq
    obtain ⟨rfl, -⟩ := heq
    rw [kill_state s pid sig w r s2 w2 hop]
    exact ⟨fun _ => rfl, fun i => rfl⟩

/-- On a sequence without `set_new_pid` that has a resulting state, the current
id at the end is the one at the start. -/
theorem run_now_pid (cs : List (Call W)) :
    ∀ (s : State W) (w : W) (s1 : State W) (w1 : W),
      (∀ c ∈ cs, c.isSetNewPid = false) → run s w cs = some (s1, w1) →
      s1.now_pid = s.now_pid := by
  induction cs with
  | nil =>
    intro s w s1 w1 _ h
    simp only [run, Option.some.injEq, Prod.mk.injEq] at h
    rw [← h.1]
  | cons c cs ih =>
    intro s w s1 w1 hcs h
    cases hst : step s w c with
    | none => simp [run, hst] at h
    | some x =>
      obtain ⟨s2, w2⟩ := x
      simp only [run, hst] at h
      rw [ih s2 w2 s1 w1 (fun c1 hc1 => hcs c1 (List.mem_cons_of_mem _ hc1)) h]
      exact (step_spec s w c s2 w2 hst).1 (hcs c (List.mem_cons_self _ _))

/-- On a sequence that has a resulting state, each descriptor slot ends as the
bundle registered last for it, or as it started when none was registered. -/
theorem run_table (cs : List (Call W)) :
    ∀ (s : State W) (w : W) (s1 : State W) (w1 : W), run s w cs = some (s1, w1) →
      ∀ i : Fin FILE_DESCRIPTOR_NUM,
        s1.file_control_functions_list i =
          (lastRegistered i cs).getD (s.file_control_functions_list i) := by
  induction cs with
  | nil =>
    intro s w s1 w1 h i
    simp only [run, Option.some.injEq, Prod.mk.injEq] at h
    rw [← h.1]
    rfl
  | cons c cs ih =>
    intro s w s1 w1 h i
    cases hst : step s w c with
    | none => simp [run, hst] at h
    | some x =>
      obtain ⟨s2, w2⟩ := x
      simp only [run, hst] at h
      rw [ih s2 w2 s1 w1 h i]
      cases hl : lastRegistered i cs with
      | some b => simp only [lastRegistered, hl, Option.getD_some]
      | none =>
        simp only [lastRegistered, hl, Option.getD_none]
        exact (step_spec s w c s2 w2 hst).2 i

/-! ## Resolution of the process slot in `kill` -/

theorem kill_direct (s : State W) (pid sig : Int) (w : W)
    (h0 : 0 < pid) (h : pid < (PROCESS_ID_NUM : Int)) :
    kill s pid sig w =
      match s.kill_func_list ⟨pid.toNat, by omega⟩ with
      | none => some (-1, s, w)
      | some f => some ((f pid sig w).1, s, (f pid sig w).2) := by
  have hp : ¬ pid ≥ (PROCESS_ID_NUM : Int) := by omega
  have hc : ¬ (pid ≤ 0 ∧ s.now_pid ≥ (PROCESS_ID_NUM : Int)) := by omega
  have hn : ¬ pid ≤ 0 := by omega
  have hu : (toUnsigned pid : Int) = pid :=
    toUnsigned_of_nonneg _ (by omega) (by unfold PROCESS_ID_NUM at h; omega)
  unfold kill
  simp only [if_neg hp, if_neg hc, if_neg hn, hu, slotAt?_inRange _ _ (le_of_lt h0) h]

theorem kill_current (s : State W) (pid sig : Int) (w : W) (hpid : pid ≤ 0)
    (h0 : 0 ≤ s.now_pid) (h : s.now_pid < (PROCESS_ID_NUM : Int)) :
    kill s pid sig w =
      match s.kill_func_list ⟨s.now_pid.toNat, by omega⟩ with
      | none => some (-1, s, w)
      | some f => some ((f pid sig w).1, s, (f pid sig w).2) := by
  have hp : ¬ pid ≥ (PROCESS_ID_NUM : Int) := by omega
  have hc : ¬ (pid ≤ 0 ∧ s.now_pid ≥ (PROCESS_ID_NUM : Int)) := by omega
  have hu : (toUnsigned s.now_pid : Int) = s.now_pid :=
    toUnsigned_of_nonneg _ h0 (by unfold PROCESS_ID_NUM at h; omega)
  unfold kill
  simp only [if_neg hp, if_neg hc, if_pos hpid, hu, slotAt?_inRange _ _ h0 h]

theorem register_process_inRange (s : State W) (id : Int) (f : Option (kill_func_t W))
    (h0 : 0 ≤ id) (h : id < (PROCESS_ID_NUM : Int)) :
    register_new_process s id f =
      some (0, { s with kill_func_list :=
                          Function.update s.kill_func_list ⟨id.toNat, by omega⟩ f }) := by
  have hp : ¬ id ≥ (PROCESS_ID_NUM : Int) := by omega
  unfold register_new_process
  simp only [if_neg hp, slotAt?_inRange _ id h0 h]

/-! ## The current process id -/

/-- C11, evaluated at sequences that leave the tables: `getpid` is 1 in the
initial state and `p` right after `set_new_pid(p)`, and a sequence that stays
inside the tables keeps a stored `-7`.  After `set_new_pid(2)` the call
`register_new_process(-1, h)` passes the only check and stores at index `-1`,
outside the process table, and after `set_new_pid(-1)` the call `kill(0, 9)`
reads at index 4294967295: neither sequence has a resulting state in which
`getpid` returns the stored id. -/
theorem getpid_after_outside_access :
    (∀ W : Type, getpid (initState : State W) = 1) ∧
    (∀ (W : Type) (s : State W) (p : Int), getpid (set_new_pid s p) = p) ∧
    (∃ s1, run (set_new_pid initState (-7)) []
        [Call.register_new_process 2 (some okHandler),
         Call.register_new_file_descriptor 1 (some writeOnlyBundle),
         Call.write 1 0 5, Call.kill 2 9, Call.close 5, Call.getpid] =
        some (s1, [(1, 5), (2, 9)]) ∧
      getpid s1 = -7) ∧
    run (set_new_pid initState 2) []
      [Call.register_new_process (-1) (some okHandler), Call.getpid] = none ∧
    (¬ ∃ s1 w1, run (set_new_pid initState 2) []
        [Call.register_new_process (-1) (some okHandler), Call.getpid] = some (s1, w1) ∧
      getpid s1 = 2) ∧
    run (set_new_pid (initState : State (List (Int × Int))) (-1)) []
      [Call.kill 0 9, Call.getpid] = none := by
  refine ⟨fun _ => rfl, fun _ _ _ => rfl, ⟨_, rfl, rfl⟩, rfl, ?_, rfl⟩
  rintro ⟨s1, w1, h, -⟩
  have hn : run (set_new_pid initState 2) []
      [Call.register_new_process (-1) (some okHandler), Call.getpid] = none := rfl
  rw [hn] at h
  exact absurd h (by simp)

/-! ## Signals sent to an explicit process id -/

/-- C12: for `0 < pid < PROCESS_ID_NUM`, `kill(pid, sig)` consults process
slot `pid` whatever value `set_new_pid` stored: a handler `f` found there is
called as `f(pid, sig)` and its result returned, an empty slot gives `-1`.
Scenario: a handler registered at 2; `kill(2, 9)` calls it with `(2, 9)`,
also when the current id is `-5`. -/
theorem kill_positive_uses_pid :
    (∀ (W : Type) (s : State W) (c pid sig : Int) (w : W)
        (h0 : 0 < pid) (h : pid < (PROCESS_ID_NUM : Int)),
      (∀ f, s.kill_func_list ⟨pid.toNat, by omega⟩ = some f →
        kill (set_new_pid s c) pid sig w =
          some ((f pid sig w).1, set_new_pid s c, (f pid sig w).2)) ∧
      (s.kill_func_list ⟨pid.toNat, by omega⟩ = none →
        kill (set_new_pid s c) pid sig w = some (-1, set_new_pid s c, w))) ∧
    (∃ s1, register_new_process initState 2 (some okHandler) = some (0, s1) ∧
      kill s1 2 9 [] = some (0, s1, [(2, 9)]) ∧
      kill (set_new_pid s1 (-5)) 2 9 [] = some (0, set_new_pid s1 (-5), [(2, 9)])) := by
  constructor
  · intro W s c pid sig w h0 h
    have hk := kill_direct (set_new_pid s c) pid sig w h0 h
    constructor
    · intro f hf
      have hf1 : (set_new_pid s c).kill_func_list ⟨pid.toNat, by omega⟩ = some f := hf
      rw [hk]
      simp only [hf1]
    · intro hf
      have hf1 : (set_new_pid s c).kill_func_list ⟨pid.toNat, by omega⟩ = none := hf
      rw [hk]
      simp only [hf1]
  · exact ⟨_, rfl, rfl, rfl⟩

theorem kill_positive_uses_pid_witness :
    (0 : Int) < 1 ∧ (1 : Int) < (PROCESS_ID_NUM : Int) ∧
      kill (set_new_pid (initState : State (List (Int × Int))) 7) 1 9 [] =
        some (-1, set_new_pid initState 7, []) := by
  have hg := kill_positive_uses_pid.1 (List (Int × Int)) initState 7 1 9 []
    (by decide) (by decide)
  exact ⟨by decide, by decide, hg.2 rfl⟩

/-- C13: `register_new_process(id, NULL)` returns `0` for every in-range
`id` and leaves slot `id` empty, whatever was there; afterwards `kill(id,
sig)` with `id > 0` returns `-1`, and so does `kill(pid, sig)` with
`pid ≤ 0` while the current id is `id`. -/
theorem register_null_handler (s : State W) (id : Int)
    (h0 : 0 ≤ id) (h : id < (PROCESS_ID_NUM : Int)) :
    ∃ s1, register_new_process s id none = some (0, s1) ∧
      s1.kill_func_list ⟨id.toNat, by omega⟩ = none ∧
      (∀ sig w, 0 < id → kill s1 id sig w = some (-1, s1, w)) ∧
      (∀ pid sig w, pid ≤ 0 →
        kill (set_new_pid s1 id) pid sig w = some (-1, set_new_pid s1 id, w)) := by
  refine ⟨_, register_process_inRange s id none h0 h, ?_, ?_, ?_⟩
  · simp only [Function.update_same]
  · intro sig w hpos
    rw [kill_direct _ id sig w hpos h]
    simp only [Function.update_same]
  · intro pid sig w hpid
    rw [kill_current _ pid sig w hpid h0 h]
    simp only [set_new_pid, Function.update_same]

theorem register_null_handler_witness :
    ∃ s0 s1, register_new_process initState 2 (some okHandler) = some (0, s0) ∧
      kill s0 2 9 [] = some (0, s0, [(2, 9)]) ∧
      register_new_process s0 2 none = some (0, s1) ∧
      kill s1 2 9 [] = some (-1, s1, []) ∧
      kill (set_new_pid s1 2) 0 9 [] = some (-1, set_new_pid s1 2, []) := by
  obtain ⟨s1, hr, -, hk, hc⟩ :=
    register_null_handler
      ({ (initState : State (List (Int × Int))) with
          kill_func_list := Function.update initState.kill_func_list
            ⟨2, by decide⟩ (some okHandler) })
      2 (by decide) (by decide)
  exact ⟨_, s1, rfl, rfl, hr, hk 9 [] (by decide), hc 0 9 [] (by decide)⟩

/-! ## Reachable states -/

theorem registeredBy_succeeds (i : Fin FILE_DESCRIPTOR_NUM) (c : Call W)
    (b : file_control_functions_t W) (s0 : State W) (hc : registeredBy i c = some b) :
    ∃ fd s1, c = Call.register_new_file_descriptor fd (some b) ∧
      register_new_file_descriptor s0 fd (some b) = some (0, s1) ∧
      s1.file_control_functions_list i = b := by
  cases c with
  | register_new_file_descriptor fd ob =>
    cases ob with
    | none => simp [registeredBy] at hc
    | some b0 =>
      by_cases hi : fd = ((i : Nat) : Int)
      · simp only [registeredBy, if_pos hi, Option.some.injEq] at hc
        subst hc
        have h0 : 0 ≤ fd := by omega
        have hlt : fd < (FILE_DESCRIPTOR_NUM : Int) := by
          have := i.isLt
          omega
        have hidx : (⟨fd.toNat, by omega⟩ : Fin FILE_DESCRIPTOR_NUM) = i := by
          apply Fin.ext
          simp only [hi, Int.toNat_ofNat]
        refine ⟨fd, _, rfl, register_inRange s0 fd b0 h0 hlt, ?_⟩
        show Function.update s0.file_control_functions_list _ b0 i = b0
        rw [Function.update_apply, if_pos hidx.symm]
      · simp [registeredBy, hi] at hc
  | close fd => simp [registeredBy] at hc
  | fstat fd buf => simp [registeredBy] at hc
  | isatty fd => simp [registeredBy] at hc
  | lseek fd offset whence => simp [registeredBy] at hc
  | read fd buf count => simp [registeredBy] at hc
  | write fd buf count => simp [registeredBy] at hc
  | register_new_process new_pid f => simp [registeredBy] at hc
  | set_new_pid pid => simp [registeredBy] at hc
  | getpid => simp [registeredBy] at hc
  | kill pid sig => simp [registeredBy] at hc

/-- C14, evaluated at a sequence that leaves the tables: a sequence that
stays inside the tables ends with slot 1 equal to the bundle registered last
and slot 0 all `NULL`; but `register_new_process(-1, h)` in the initial state,
a sequence in which no bundle is registered for any descriptor, passes the
only check and stores `h` at index `-1`, outside the process table, so the
sequence has no resulting state in which every descriptor slot is all
`NULL`. -/
theorem slot_invariant_after_outside_store :
    (∃ s w1, run initState []
        [Call.register_new_file_descriptor 1 (some closeOnlyBundle),
         Call.close 1,
         Call.register_new_file_descriptor 1 none,
         Call.register_new_file_descriptor 5 (some closeOnlyBundle),
         Call.register_new_file_descriptor 1 (some writeOnlyBundle),
         Call.write 1 0 5] = some (s, w1) ∧
      w1 = [(1, 0), (1, 5)] ∧
      s.file_control_functions_list ⟨1, by decide⟩ = writeOnlyBundle ∧
      s.file_control_functions_list ⟨0, by decide⟩ = nullBundle) ∧
    (∀ i, lastRegistered i [Call.register_new_process (-1) (some okHandler)] = none) ∧
    run initState [] [Call.register_new_process (-1) (some okHandler)] = none ∧
    (¬ ∃ s w1, run initState [] [Call.register_new_process (-1) (some okHandler)] =
        some (s, w1) ∧
      ∀ i, s.file_control_functions_list i = nullBundle) := by
  refine ⟨⟨_, _, rfl, rfl, rfl, rfl⟩, fun _ => rfl, rfl, ?_⟩
  rintro ⟨s, w1, h, -⟩
  have hn : run initState [] [Call.register_new_process (-1) (some okHandler)] = none := rfl
  rw [hn] at h
  exact absurd h (by simp)

/-! ## The initial state -/

/-- C15: in the initial state every descriptor slot and every process slot is
empty: for every `int` descriptor, `close`, `fstat`, `isatty`, `lseek` and
`write` return `-1` and `read` returns `0`, and `kill(pid, sig)` returns `-1`
for every `pid` and `sig`, a `pid ≤ 0` resolving to the default current id 1. -/
theorem initial_state_all_fail (fd : Int) (hfd : IsInt32 fd) (buf count : Nat)
    (offset whence pid sig : Int) (w : W) :
    (∀ i, (initState : State W).file_control_functions_list i = nullBundle) ∧
    (∀ k, (initState : State W).kill_func_list k = none) ∧
    getpid (initState : State W) = 1 ∧
    close initState fd w = some (-1, initState, w) ∧
    fstat initState fd buf w = some (-1, initState, w) ∧
    isatty initState fd w = some (-1, initState, w) ∧
    lseek initState fd offset whence w = some (-1, initState, w) ∧
    write initState fd buf count w = some (-1, initState, w) ∧
    read initState fd buf count w = some (0, initState, w) ∧
    kill initState pid sig w = some (-1, initState, w) := by
  refine ⟨fun _ => rfl, fun _ => rfl, rfl, ?_, ?_, ?_, ?_, ?_, ?_, ?_⟩
  · by_cases hr : 0 ≤ fd ∧ fd < (FILE_DESCRIPTOR_NUM : Int)
    · unfold close
      simp only [if_neg (toUnsigned_inRange fd hr.1 hr.2), slotAt?_inRange _ fd hr.1 hr.2,
        initState, nullBundle]
    · unfold close
      simp only [if_pos (toUnsigned_outOfRange fd hfd (by omega))]
  · by_cases hr : 0 ≤ fd ∧ fd < (FILE_DESCRIPTOR_NUM : Int)
    · unfold fstat
      simp only [if_neg (toUnsigned_inRange fd hr.1 hr.2), slotAt?_inRange _ fd hr.1 hr.2,
        initState, nullBundle]
    · unfold fstat
      simp only [if_pos (toUnsigned_outOfRange fd hfd (by omega))]
  · by_cases hr : 0 ≤ fd ∧ fd < (FILE_DESCRIPTOR_NUM : Int)
    · unfold isatty
      simp only [if_neg (toUnsigned_inRange fd hr.1 hr.2), slotAt?_inRange _ fd hr.1 hr.2,
        initState, nullBundle]
    · unfold isatty
      simp only [if_pos (toUnsigned_outOfRange fd hfd (by omega))]
  · by_cases hr : 0 ≤ fd ∧ fd < (FILE_DESCRIPTOR_NUM : Int)
    · unfold lseek
      simp only [if_neg (toUnsigned_inRange fd hr.1 hr.2), slotAt?_inRange _ fd hr.1 hr.2,
        initState, nullBundle]
    · unfold lseek
      simp only [if_pos (toUnsigned_outOfRange fd hfd (by omega))]
  · by_cases hr : 0 ≤ fd ∧ fd < (FILE_DESCRIPTOR_NUM : Int)
    · unfold write
      simp only [if_neg (toUnsigned_inRange fd hr.1 hr.2), slotAt?_inRange _ fd hr.1 hr.2,
        initState, nullBundle]
    · unfold write
      simp only [if_pos (toUnsigned_outOfRange fd hfd (by omega))]
  · by_cases hr : 0 ≤ fd ∧ fd < (FILE_DESCRIPTOR_NUM : Int)
    · unfold read
      simp only [if_neg (toUnsigned_inRange fd hr.1 hr.2), slotAt?_inRange _ fd hr.1 hr.2,
        initState, nullBundle]
    · unfold read
      simp only [if_pos (toUnsigned_outOfRange fd hfd (by omega))]
  · by_cases hp : pid ≥ (PROCESS_ID_NUM : Int)
    · unfold kill
      simp only [if_pos hp]
    · by_cases hn : pid ≤ 0
      · have h0 : (0 : Int) ≤ (initState : State W).now_pid := by
          show (0 : Int) ≤ 1
          decide
        have h1 : (initState : State W).now_pid < (PROCESS_ID_NUM : Int) := by
          show (1 : Int) < (PROCESS_ID_NUM : Int)
          decide
        rw [kill_current initState pid sig w hn h0 h1]
        rfl
      · rw [kill_direct initState pid sig w (by omega) (by omega)]
        rfl

theorem initial_state_all_fail_witness :
    IsInt32 1 ∧
      write (initState : State (List (Int × Int))) 1 0 5 [] = some (-1, initState, []) ∧
      kill (initState : State (List (Int × Int))) 0 9 [] = some (-1, initState, []) := by
  have hfd : IsInt32 1 := by decide
  obtain ⟨-, -, -, -, -, -, -, hw, -, hk⟩ :=
    initial_state_all_fail (W := List (Int × Int)) 1 hfd 0 5 0 0 0 9 []
  exact ⟨hfd, hw, hk⟩

/-! ## The unsigned descriptor check -/

/-- C16: for a 32-bit signed `fd`, the check `(unsigned int)fd >=
FILE_DESCRIPTOR_NUM` of the seven file operations holds exactly when `fd < 0`
or `fd >= FILE_DESCRIPTOR_NUM`; a negative `fd` is therefore rejected, and
when the check does not fire the signed `fd` indexes a slot of the table, so
each of the seven operations has a defined result. -/
theorem unsigned_check_iff (fd : Int) (hfd : IsInt32 fd) :
    (toUnsigned fd ≥ FILE_DESCRIPTOR_NUM ↔ (fd < 0 ∨ fd ≥ (FILE_DESCRIPTOR_NUM : Int))) ∧
    (fd < 0 → toUnsigned fd ≥ FILE_DESCRIPTOR_NUM) ∧
    (¬ toUnsigned fd ≥ FILE_DESCRIPTOR_NUM →
      ∃ i : Fin FILE_DESCRIPTOR_NUM,
        slotAt? FILE_DESCRIPTOR_NUM fd = some i ∧ ((i : Nat) : Int) = fd) ∧
    (∀ (W : Type) (s : State W) (b : Option (file_control_functions_t W))
        (buf count : Nat) (offset whence : Int) (w : W),
      (register_new_file_descriptor s fd b).isSome = true ∧
      (close s fd w).isSome = true ∧
      (fstat s fd buf w).isSome = true ∧
      (isatty s fd w).isSome = true ∧
      (lseek s fd offset whence w).isSome = true ∧
      (read s fd buf count w).isSome = true ∧
      (write s fd buf count w).isSome = true) := by
  have hiff : toUnsigned fd ≥ FILE_DESCRIPTOR_NUM ↔
      (fd < 0 ∨ fd ≥ (FILE_DESCRIPTOR_NUM : Int)) := by
    constructor
    · intro hu
      by_contra hn
      exact toUnsigned_inRange fd (by omega) (by omega) hu
    · exact toUnsigned_outOfRange fd hfd
  have hslot : ¬ toUnsigned fd ≥ FILE_DESCRIPTOR_NUM →
      ∃ i : Fin FILE_DESCRIPTOR_NUM,
        slotAt? FILE_DESCRIPTOR_NUM fd = some i ∧ ((i : Nat) : Int) = fd := by
    intro hu
    have hr : ¬ (fd < 0 ∨ fd ≥ (FILE_DESCRIPTOR_NUM : Int)) := fun h => hu (hiff.mpr h)
    have h0 : 0 ≤ fd := by omega
    have hlt : fd < (FILE_DESCRIPTOR_NUM : Int) := by omega
    exact ⟨_, slotAt?_inRange _ fd h0 hlt, Int.toNat_of_nonneg h0⟩
  refine ⟨hiff, fun h => hiff.mpr (Or.inl h), hslot, ?_⟩
  intro W s b buf count offset whence w
  by_cases hu : toUnsigned fd ≥ FILE_DESCRIPTOR_NUM
  · refine ⟨?_, ?_, ?_, ?_, ?_, ?_, ?_⟩
    · simp only [register_new_file_descriptor, if_pos hu, Option.isSome_some]
    · simp only [close, if_pos hu, Option.isSome_some]
    · simp only [fstat, if_pos hu, Option.isSome_some]
    · simp only [isatty, if_pos hu, Option.isSome_some]
    · simp only [lseek, if_pos hu, Option.isSome_some]
    · simp only [read, if_pos hu, Option.isSome_some]
    · simp only [write, if_pos hu, Option.isSome_some]
  · obtain ⟨i, hs, -⟩ := hslot hu
    refine ⟨?_, ?_, ?_, ?_, ?_, ?_, ?_⟩
    · cases b with
      | none => simp only [register_new_file_descriptor, if_neg hu, Option.isSome_some]
      | some b0 => simp only [register_new_file_descriptor, if_neg hu, hs, Option.isSome_some]
    · cases hf : (s.file_control_functions_list i).close_func with
      | none => simp only [close, if_neg hu, hs, hf, Option.isSome_some]
      | some f => simp only [close, if_neg hu, hs, hf, Option.isSome_some]
    · cases hf : (s.file_control_functions_list i).fstat_func with
      | none => simp only [fstat, if_neg hu, hs, hf, Option.isSome_some]
      | some f => simp only [fstat, if_neg hu, hs, hf, Option.isSome_some]
    · cases hf : (s.file_control_functions_list i).isatty_func with
      | none => simp only [isatty, if_neg hu, hs, hf, Option.isSome_some]
      | some f => simp only [isatty, if_neg hu, hs, hf, Option.isSome_some]
    · cases hf : (s.file_control_functions_list i).lseek_func with
      | none => simp only [lseek, if_neg hu, hs, hf, Option.isSome_some]
      | some f => simp only [lseek, if_neg hu, hs, hf, Option.isSome_some]
    · cases hf : (s.file_control_functions_list i).read_func with
      | none => simp only [read, if_neg hu, hs, hf, Option.isSome_some]
      | some f => simp only [read, if_neg hu, hs, hf, Option.isSome_some]
    · cases hf : (s.file_control_functions_list i).write_func with
      | none => simp only [write, if_neg hu, hs, hf, Option.isSome_some]
      | some f => simp only [write, if_neg hu, hs, hf, Option.isSome_some]

theorem unsigned_check_iff_witness :
    IsInt32 (-2147483648) ∧ toUnsigned (-2147483648) = 2147483648 ∧
      toUnsigned (-2147483648) ≥ FILE_DESCRIPTOR_NUM ∧
      (close (initState : State (List (Int × Int))) (-2147483648) []).isSome = true := by
  have hfd : IsInt32 (-2147483648) := by decide
  have hg := unsigned_check_iff (-2147483648) hfd
  exact ⟨hfd, rfl, hg.2.1 (by decide),
    (hg.2.2.2 (List (Int × Int)) initState none 0 0 0 0 []).2.1⟩

/-! ## Frame properties -/

/-- C17: `close`, `fstat`, `isatty`, `lseek`, `read`, `write`, `getpid` and
`kill` leave the module state as it was: whenever one of them has a result,
the state after the call (both tables and the current id) is the state
before it, for all arguments; `kill` with `pid ≤ 0` reads the current id and
does not change it. -/
theorem dispatch_preserves_state (s : State W) (fd offset whence pid sig : Int)
    (buf count : Nat) (w : W) (r : Int) (s1 : State W) (w1 : W) :
    (close s fd w = some (r, s1, w1) → s1 = s) ∧
    (fstat s fd buf w = some (r, s1, w1) → s1 = s) ∧
    (isatty s fd w = some (r, s1, w1) → s1 = s) ∧
    (lseek s fd offset whence w = some (r, s1, w1) → s1 = s) ∧
    (read s fd buf count w = some (r, s1, w1) → s1 = s) ∧
    (write s fd buf count w = some (r, s1, w1) → s1 = s) ∧
    (kill s pid sig w = some (r, s1, w1) → s1 = s) ∧
    (kill s pid sig w = some (r, s1, w1) → getpid s1 = getpid s) ∧
    step s w Call.getpid = some (s, w) :=
  ⟨close_state s fd w r s1 w1, fstat_state s fd buf w r s1 w1, isatty_state s fd w r s1 w1,
    lseek_state s fd offset whence w r s1 w1, read_state s fd buf count w r s1 w1,
    write_state s fd buf count w r s1 w1, kill_state s pid sig w r s1 w1,
    fun h => by rw [kill_state s pid sig w r s1 w1 h], rfl⟩

theorem dispatch_preserves_state_witness :
    ∃ s0 s1, register_new_process initState 1 (some okHandler) = some (0, s0) ∧
      kill s0 0 9 [] = some (0, s1, [(0, 9)]) ∧ s1 = s0 ∧ getpid s1 = 1 := by
  refine ⟨_, _, rfl, rfl, ?_, rfl⟩
  exact (dispatch_preserves_state _ 0 0 0 0 9 0 0 [] 0 _ [(0, 9)]).2.2.2.2.2.2.1 rfl

/-- C18: each mutator changes only its target.  A successful
`register_new_file_descriptor(d, b)` sets slot `d` to `b` and leaves the other
descriptor slots, the process table and the current id as they were;
`register_new_process(id, h)` with an in-range `id` sets process slot `id` to
`h` and leaves the other process slots, the descriptor table and the current
id; `set_new_pid(p)` sets the current id and leaves both tables. -/
theorem mutators_change_only_target (s : State W) :
    (∀ (d : Int) (b : file_control_functions_t W) (h0 : 0 ≤ d)
        (h : d < (FILE_DESCRIPTOR_NUM : Int)),
      ∃ s1, register_new_file_descriptor s d (some b) = some (0, s1) ∧
        s1.file_control_functions_list ⟨d.toNat, by omega⟩ = b ∧
        (∀ j : Fin FILE_DESCRIPTOR_NUM, ((j : Nat) : Int) ≠ d →
          s1.file_control_functions_list j = s.file_control_functions_list j) ∧
        s1.kill_func_list = s.kill_func_list ∧ s1.now_pid = s.now_pid) ∧
    (∀ (id : Int) (f : Option (kill_func_t W)) (h0 : 0 ≤ id)
        (h : id < (PROCESS_ID_NUM : Int)),
      ∃ s1, register_new_process s id f = some (0, s1) ∧
        s1.kill_func_list ⟨id.toNat, by omega⟩ = f ∧
        (∀ j : Fin PROCESS_ID_NUM, ((j : Nat) : Int) ≠ id →
          s1.kill_func_list j = s.kill_func_list j) ∧
        s1.file_control_functions_list = s.file_control_functions_list ∧
        s1.now_pid = s.now_pid) ∧
    (∀ p : Int, (set_new_pid s p).now_pid = p ∧
      (set_new_pid s p).file_control_functions_list = s.file_control_functions_list ∧
      (set_new_pid s p).kill_func_list = s.kill_func_list) := by
  refine ⟨?_, ?_, fun p => ⟨rfl, rfl, rfl⟩⟩
  · intro d b h0 h
    have hr := register_inRange s d b h0 h
    have hf := register_fd_frame s d (some b) 0 _ hr
    exact ⟨_, hr, by simp only [Function.update_same], hf.2.2, hf.2.1, hf.1⟩
  · intro id f h0 h
    have hr := register_process_inRange s id f h0 h
    have hf := register_process_frame s id f 0 _ hr
    exact ⟨_, hr, by simp only [Function.update_same], hf.2.2, hf.2.1, hf.1⟩

theorem mutators_change_only_target_witness :
    ∃ s1, register_new_file_descriptor initState 1 (some writeOnlyBundle) = some (0, s1) ∧
      s1.file_control_functions_list ⟨1, by decide⟩ = writeOnlyBundle ∧
      s1.file_control_functions_list ⟨0, by decide⟩ = nullBundle ∧
      s1.file_control_functions_list ⟨2, by decide⟩ = nullBundle ∧
      s1.now_pid = 1 := by
  obtain ⟨s1, hr, hs, hj, -, hp⟩ :=
    (mutators_change_only_target (initState : State (List (Int × Int)))).1 1
      writeOnlyBundle (by decide) (by decide)
  exact ⟨s1, hr, hs, hj ⟨0, by decide⟩ (by decide), hj ⟨2, by decide⟩ (by decide), hp⟩

/-! ## Indexing of the process table -/

/-- C19: the process table is indexed inside `0 .. PROCESS_ID_NUM - 1` exactly
under a non-negativity condition, both checks comparing the signed value with
the upper bound only.  `register_new_process` has a defined result exactly
when `new_pid ≥ 0`; `kill` has one whenever `pid > 0` or the current id is
`≥ 0`, and for a 32-bit current id only then. -/
theorem process_table_index_bounds (s : State W) (pid sig new_pid : Int)
    (f : Option (kill_func_t W)) (w : W) :
    ((register_new_process s new_pid f).isSome = true ↔ 0 ≤ new_pid) ∧
    (0 ≤ new_pid → new_pid < (PROCESS_ID_NUM : Int) →
      ∃ k : Fin PROCESS_ID_NUM, slotAt? PROCESS_ID_NUM new_pid = some k ∧
        ((k : Nat) : Int) = new_pid) ∧
    ((0 < pid ∨ 0 ≤ s.now_pid) → (kill s pid sig w).isSome = true) ∧
    (IsInt32 s.now_pid →
      ((kill s pid sig w).isSome = true ↔ (0 < pid ∨ 0 ≤ s.now_pid))) := by
  have hreg : (register_new_process s new_pid f).isSome = true ↔ 0 ≤ new_pid := by
    by_cases hu : new_pid ≥ (PROCESS_ID_NUM : Int)
    · simp only [register_new_process, if_pos hu, Option.isSome_some, true_iff]
      omega
    · by_cases h0 : 0 ≤ new_pid
      · simp only [register_process_inRange s new_pid f h0 (by omega), Option.isSome_some,
          h0]
      · simp only [register_new_process, if_neg hu,
          slotAt?_outOfRange _ new_pid (Or.inl (by omega)), Option.isSome_none, h0]
        simp
  have hkill : (0 < pid ∨ 0 ≤ s.now_pid) → (kill s pid sig w).isSome = true := by
    intro hpre
    by_cases hp : pid ≥ (PROCESS_ID_NUM : Int)
    · simp only [kill, if_pos hp, Option.isSome_some]
    · by_cases hn : pid ≤ 0
      · by_cases hc : s.now_pid ≥ (PROCESS_ID_NUM : Int)
        · simp only [kill, if_neg hp, if_pos (And.intro hn hc), Option.isSome_some]
        · rw [kill_current s pid sig w hn (by omega) (by omega)]
          split <;> rfl
      · rw [kill_direct s pid sig w (by omega) (by omega)]
        split <;> rfl
  refine ⟨hreg, ?_, hkill, ?_⟩
  · intro h0 h
    exact ⟨_, slotAt?_inRange _ new_pid h0 h, Int.toNat_of_nonneg h0⟩
  · intro hint
    refine ⟨?_, hkill⟩
    intro hsome
    by_contra hpre
    have hn : pid ≤ 0 := by omega
    have hneg : s.now_pid < 0 := by omega
    have hp : ¬ pid ≥ (PROCESS_ID_NUM : Int) := by
      unfold PROCESS_ID_NUM
      omega
    have hc : ¬ (pid ≤ 0 ∧ s.now_pid ≥ (PROCESS_ID_NUM : Int)) := by
      unfold PROCESS_ID_NUM
      omega
    have hu := toUnsigned_of_neg s.now_pid (by unfold IsInt32 at hint; omega) hneg
    have hout : slotAt? PROCESS_ID_NUM ((toUnsigned s.now_pid : Nat) : Int) = none := by
      apply slotAt?_outOfRange
      right
      unfold IsInt32 at hint
      unfold PROCESS_ID_NUM
      omega
    simp only [kill, if_neg hp, if_neg hc, if_pos hn, hout, Option.isSome_none] at hsome
    exact absurd hsome (by decide)

theorem process_table_index_bounds_witness :
    IsInt32 (-1) ∧
      (kill (set_new_pid (initState : State (List (Int × Int))) (-1)) 0 9 []).isSome = false ∧
      (kill (set_new_pid (initState : State (List (Int × Int))) (-1)) 2 9 []).isSome = true ∧
      (register_new_process (initState : State (List (Int × Int))) 7 none).isSome = true := by
  have hint : IsInt32 (set_new_pid (initState : State (List (Int × Int))) (-1)).now_pid := by
    show IsInt32 (-1)
    decide
  have hg := process_table_index_bounds
    (set_new_pid (initState : State (List (Int × Int))) (-1)) 2 9 7 none []
  have hz := (process_table_index_bounds
    (set_new_pid (initState : State (List (Int × Int))) (-1)) 0 9 7 none []).2.2.2 hint
  exact ⟨by decide, Bool.eq_false_iff.mpr (fun h => absurd (hz.mp h) (by decide)),
    hg.2.2.1 (Or.inl (by decide)),
    (process_table_index_bounds (initState : State (List (Int × Int))) 0 9 7 none []).1.mpr
      (by decide)⟩

end DummyUnistd
